import Mathlib

/-!
Shallow embedding of the `job_ranker` repository (src/api.py, src/llm.py)
and proofs about the claims of its specification.

Modelling conventions:
* Python machine-level I/O (temporary files, multipart uploads, the network
  call to the Mistral analysis engine, and the pdfplumber / python-docx
  parsers) is abstracted: an uploaded file carries its filename, and its
  parsed content is represented by the `FileContent` oracle (the list of
  page texts a PDF parser would produce, or the paragraphs/tables of a
  DOCX document).  The analysis engine is a function parameter.
* Python dictionaries are association lists with Python's insertion-order
  semantics: updating an existing key keeps its position, a new key is
  appended (`dictInsert`).
* Python exceptions are `Except` values; FastAPI's handling of an
  `HTTPException` raised out of a route is a `Response` with that status,
  and the catch-all `except Exception` of `score_resumes` is the explicit
  wrapper in `score_resumes`.
* Python `int` values and `float` values are `Int` and `ℚ`; the running
  total is a `PyNumber` (an int that becomes a float once a float is
  added), as in Python.
* Byte-level core String functions that do not reduce in the kernel
  (`endsWith`, `toLower`, `trim`, `startsWith`) are replaced by
  character-level equivalents (`strEndsWith`, `strLower`, `pyTrim`,
  `strStartsWith`) with the same behavior on the ASCII inputs involved.
-/

namespace JobRanker

/-- A JSON value, the result of `json.loads` on the `criteria` form field. -/
inductive Json where
  | null
  | bool (b : Bool)
  | num (q : ℚ)
  | str (s : String)
  | arr (elems : List Json)
  | obj (fields : List (String × Json))

/-- An uploaded file as seen by the route handlers: only its filename is
inspected by the repository's own code; the parsed content is modelled
separately by `FileContent`. -/
structure UploadFile where
  filename : String
deriving Repr, DecidableEq

/-- The parsed content of a DOCX document as python-docx exposes it:
body paragraphs, and tables (a table is a list of rows, a row a list of
cell texts). -/
structure DocxDocument where
  paragraphs : List String
  tables : List (List (List String))
deriving Repr, DecidableEq

/-- What the document parsing libraries yield for an uploaded file:
a PDF's per-page `extract_text()` results (`none` models a page returning
Python `None`), a parsed DOCX document, or a parser exception with its
message (corrupt file, or content not matching the extension). -/
inductive FileContent where
  | pdf (pages : List (Option String))
  | docx (document : DocxDocument)
  | broken (err : String)
deriving Repr, DecidableEq

/-- A Python value stored in a score dictionary: a string, an int, a float
(modelled as a rational), or `None`. -/
inductive PyValue where
  | text (s : String)
  | intVal (n : Int)
  | floatVal (q : ℚ)
  | noneVal
deriving Repr, DecidableEq

/-- A Python dict from field names to values, in insertion order. -/
abbrev Dict := List (String × PyValue)

/-- The observable HTTP response of a route: status code plus the payload
fields the two endpoints use (absent fields are `none`). -/
structure Response where
  status_code : ℕ
  detail : Option String := none
  message : Option String := none
  criteria : Option (List String) := none
  csv : Option String := none
deriving Repr, DecidableEq

/-- A Python exception escaping the body of `score_resumes`:
an `HTTPException` (status, detail), a `ValueError` from `json.loads`,
or any other exception with its message. -/
inductive PyExn where
  | httpExn (status : ℕ) (detail : String)
  | valueError (msg : String)
  | exn (msg : String)
deriving Repr, DecidableEq

/-- Python's `str(e)` for the exceptions of `PyExn`; for Starlette's
`HTTPException` this is `"{status_code}: {detail}"`. -/
def exnMessage : PyExn → String
  | .httpExn status detail => toString status ++ ": " ++ detail
  | .valueError msg => msg
  | .exn msg => msg

/-- Python `str.endswith`: a character-level suffix test (executable model
of the byte-level core implementation). -/
def strEndsWith (s post : String) : Bool :=
  post.data.isSuffixOf s.data

/-- Python `str.startswith`. -/
def strStartsWith (s pre : String) : Bool :=
  pre.data.isPrefixOf s.data

/-- ASCII lowering of one character (Python `str.lower` on ASCII). -/
def charLower (c : Char) : Char :=
  if 'A' ≤ c ∧ c ≤ 'Z' then Char.ofNat (c.toNat + 32) else c

/-- Python `str.lower`, restricted to ASCII case mapping. -/
def strLower (s : String) : String :=
  String.mk (s.data.map charLower)

/-- api.py lines 110 and 238: `file.filename.endswith((".pdf", ".docx"))`.
Note this is a case-sensitive suffix test. -/
def validExtension (filename : String) : Bool :=
  strEndsWith filename ".pdf" || strEndsWith filename ".docx"

/-- `os.path.splitext(name)[1]`: the suffix starting at the last dot,
except that a basename consisting only of leading dots has no extension. -/
def splitextExt (name : String) : String :=
  let cs := name.data
  let lastDot := (List.range cs.length).foldl
    (fun acc i => if cs.getD i ' ' = '.' then some i else acc) (none : Option ℕ)
  match lastDot with
  | none => ""
  | some d => if (cs.take d).all (fun c => c = '.') then "" else String.mk (cs.drop d)

/-- api.py lines 128-133 / 305-310: concatenate the extracted text of each
PDF page followed by a newline, skipping pages whose extraction returned
`None`. -/
def pdfText (pages : List (Option String)) : String :=
  pages.foldl (fun t p => match p with | some s => t ++ s ++ "\n" | none => t) ""

/-- Concatenation of a list of strings (successive `+=` in Python). -/
def strConcat (l : List String) : String :=
  l.foldr (fun s acc => s ++ acc) ""

/-- api.py lines 318-322: for each table, for each row, append every cell's
text followed by a space, then a newline after the row. -/
def docxTablesText (tables : List (List (List String))) : String :=
  strConcat (tables.map (fun table =>
    strConcat (table.map (fun row =>
      strConcat (row.map (fun cell => cell ++ " ")) ++ "\n"))))

/-- Text extraction as performed inside `extract_criteria`
(api.py lines 124-139): PDF pages, or the newline-joined paragraphs of a
DOCX — table cells are NOT read here.  A filename whose lowered extension
is neither ".pdf" nor ".docx" leaves `text` unbound, which surfaces as an
exception; a parser failure or an extension/content mismatch is an
exception of the underlying library. -/
def extractTextCriteria (filename : String) (content : FileContent) : Except String String :=
  let ext := strLower (splitextExt filename)
  if ext = ".pdf" then
    match content with
    | .pdf pages => .ok (pdfText pages)
    | .broken e => .error e
    | _ => .error "not a PDF document"
  else if ext = ".docx" then
    match content with
    | .docx doc => .ok (String.intercalate "\n" doc.paragraphs)
    | .broken e => .error e
    | _ => .error "not a DOCX document"
  else
    .error "local variable referenced before assignment"

/-- Text extraction as performed inside `process_file`
(api.py lines 301-322): like `extractTextCriteria` but for DOCX the table
cell texts are appended after the paragraph text. -/
def extractTextScore (filename : String) (content : FileContent) : Except String String :=
  let ext := strLower (splitextExt filename)
  if ext = ".pdf" then
    match content with
    | .pdf pages => .ok (pdfText pages)
    | .broken e => .error e
    | _ => .error "not a PDF document"
  else if ext = ".docx" then
    match content with
    | .docx doc => .ok (String.intercalate "\n" doc.paragraphs ++ docxTablesText doc.tables)
    | .broken e => .error e
    | _ => .error "not a DOCX document"
  else
    .error "local variable referenced before assignment"

/-- llm.py lines 46-48: `re.sub(r"[^a-zA-Z0-9]", "_", s)` — replace every
character outside ASCII `[A-Za-z0-9]` with an underscore. -/
def normalizeCriterion (s : String) : String :=
  String.mk (s.data.map (fun c => if c.isAlphanum then c else '_'))

/-- A pydantic field declaration in the dynamically created scoring class:
`scoreField` models `(str, "5")` (a text field with default "5"),
`usernameField` models `(str, "")` (the username text field with default
the empty string). -/
inductive FieldDef where
  | scoreField
  | usernameField
deriving Repr, DecidableEq

/-- Whether a Python dict has the given key. -/
def hasKey (d : List (String × α)) (k : String) : Bool :=
  d.any (fun kv => kv.1 = k)

/-- Python dict assignment `d[k] = v`: overwriting an existing key keeps
its position, a new key is appended at the end. -/
def dictInsert (d : List (String × α)) (k : String) (v : α) : List (String × α) :=
  if hasKey d k then d.map (fun kv => if kv.1 = k then (k, v) else kv)
  else d ++ [(k, v)]

/-- llm.py line 76: `{string: (str, "5") for string in strings}` — build the
field dict from the cleaned criterion names, in order. -/
def buildScoreFields (strings : List String) : List (String × FieldDef) :=
  strings.foldl (fun d s => dictInsert d s .scoreField) []

/-- llm.py lines 74-79 (`create_class_from_strings`): the field dict of the
dynamic pydantic model — one `(str, "5")` field per cleaned criterion,
then `field_definitions["username"] = (str, "")`.  If some criterion is
itself the string "username" this assignment overwrites that entry in
place.  The runtime class name parameter is dropped (it does not affect
the fields). -/
def create_class_from_strings (strings : List String) : List (String × FieldDef) :=
  dictInsert (buildScoreFields strings) "username" .usernameField

/-- llm.py line 15: the `ExtractedCriteria` pydantic model — a single
`criteria : list[str]` field, with no constraint on the length. -/
structure ExtractedCriteria where
  criteria : List String
deriving Repr, DecidableEq

/-- The structured analysis engine used for scoring: given the resume text
and the field names of the dynamic schema, it either fails or returns a
value for every field of the schema (pydantic's `response_format`
guarantees the parsed object has exactly the schema's fields). -/
abbrev ScoreEngine := String → List String → Except String (String → PyValue)

/-- llm.py lines 44-71 (`llm_generate_score`): clean the criteria, build
the dynamic class, call the engine with the schema, and return the parsed
object as a dict (`dict(scores)` in `process_file`), whose keys are
exactly the schema's fields in declaration order. -/
def llm_generate_score (resumeText : String) (scoringCriteria : List String)
    (engine : ScoreEngine) : Except String Dict :=
  let cleaned := scoringCriteria.map normalizeCriterion
  let fields := create_class_from_strings cleaned
  match engine resumeText (fields.map Prod.fst) with
  | .error e => .error e
  | .ok valuation => .ok (fields.map (fun kv => (kv.1, valuation kv.1)))

/-- Extract the strings of a JSON array; any non-string element makes the
later `re.sub` cleaning raise a `TypeError` (modelled as `none`). -/
def jsonStrings (l : List Json) : Option (List String) :=
  l.foldr (fun j acc =>
    match j, acc with
    | .str s, some rest => some (s :: rest)
    | _, _ => none) (some [])

/-- api.py lines 291-329 (`process_file`): persist the upload, extract its
text (with table cells for DOCX), and call `llm_generate_score`; any
failure propagates as the task's exception.  Temporary-file handling is
I/O and is not modelled. -/
def process_file (file : UploadFile) (content : FileContent)
    (criteriaList : List Json) (engine : ScoreEngine) : Except String Dict :=
  match extractTextScore file.filename content with
  | .error e => .error e
  | .ok text =>
    match jsonStrings criteriaList with
    | none => .error "expected string or bytes-like object"
    | some cs => llm_generate_score text cs engine

/-- The concurrent task of the i-th file (api.py line 246). -/
def taskOf (files : List UploadFile) (contents : List FileContent)
    (criteriaList : List Json) (engine : ScoreEngine) (i : ℕ) : Except String Dict :=
  match files[i]?, contents[i]? with
  | some f, some c => process_file f c criteriaList engine
  | _, _ => .error "index out of range"

/-- Python `int(s)` on a string (restricted to ASCII digits): strip
whitespace, allow one leading sign, require at least one digit. -/
def digitsVal (cs : List Char) : ℕ :=
  cs.foldl (fun a c => a * 10 + (c.toNat - 48)) 0

/-- Python `str.strip` on a character list. -/
def pyTrim (cs : List Char) : List Char :=
  ((cs.dropWhile Char.isWhitespace).reverse.dropWhile Char.isWhitespace).reverse

/-- Conversion attempted by `int(value)` at api.py line 258; `none` models
the `ValueError` branch. -/
def pyIntOfString (s : String) : Option Int :=
  match pyTrim s.data with
  | [] => none
  | '-' :: rest =>
      if rest ≠ [] ∧ rest.all Char.isDigit then some (-(digitsVal rest : Int)) else none
  | '+' :: rest =>
      if rest ≠ [] ∧ rest.all Char.isDigit then some (digitsVal rest : Int) else none
  | cs =>
      if cs.all Char.isDigit then some (digitsVal cs : Int) else none

/-- A Python number as accumulated in `total_score`: it starts as the int
0 and stays an int while ints are added; adding a float turns it into a
float. -/
inductive PyNumber where
  | int (n : Int)
  | float (q : ℚ)
deriving Repr, DecidableEq

/-- Python `+` on numbers: int + int is an int, any float makes the result
a float. -/
def pyAdd : PyNumber → PyNumber → PyNumber
  | .int a, .int b => .int (a + b)
  | .int a, .float b => .float ((a : ℚ) + b)
  | .float a, .int b => .float (a + (b : ℚ))
  | .float a, .float b => .float (a + b)

/-- A number stored back into a Python dict. -/
def numToValue : PyNumber → PyValue
  | .int n => .intVal n
  | .float q => .floatVal q

/-- One iteration of the totals loop of `score_resumes`
(api.py lines 253-270) on the entry `(key, v)`: the updated field value and
the amount added to `total_score`.  The `username` field is skipped; a
string is converted with `int` and range-checked; an int or float is
range-checked directly; any other value (e.g. `None`) matches neither
`isinstance` branch and is untouched. -/
def scoreStep (key : String) (v : PyValue) : PyValue × PyNumber :=
  if key = "username" then (v, .int 0)
  else
    match v with
    | .text s =>
      match pyIntOfString s with
      | some n => if 1 ≤ n ∧ n ≤ 5 then (.text s, .int n) else (.text "Error", .int 0)
      | none => (.text s, .int 0)
    | .intVal n => if 1 ≤ n ∧ n ≤ 5 then (.intVal n, .int n) else (.text "Error", .int 0)
    | .floatVal q => if 1 ≤ q ∧ q ≤ 5 then (.floatVal q, .float q) else (.text "Error", .int 0)
    | .noneVal => (.noneVal, .int 0)

/-- The whole totals loop (api.py lines 250-270): fold `scoreStep` over the
dict, rebuilding it in order and accumulating `total_score` from int 0. -/
def totalsFold (d : Dict) : Dict × PyNumber :=
  d.foldl (fun acc kv =>
    (acc.1 ++ [(kv.1, (scoreStep kv.1 kv.2).1)], pyAdd acc.2 (scoreStep kv.1 kv.2).2))
    ([], .int 0)

/-- api.py line 273: `score_dict["total"] = total_score` after the loop. -/
def applyTotals (d : Dict) : Dict :=
  dictInsert (totalsFold d).1 "total" (numToValue (totalsFold d).2)

/-- Column collection of `pd.DataFrame(list_of_dicts)`: the union of the
rows' keys in first-seen order. -/
def addCols (cols : List String) (row : Dict) : List String :=
  row.foldl (fun cs kv => if kv.1 ∈ cs then cs else cs ++ [kv.1]) cols

/-- The DataFrame's columns for a list of row dicts. -/
def dataFrameColumns (rows : List Dict) : List String :=
  rows.foldl addCols []

/-- How a stored value prints in the CSV (model of pandas rendering; a
missing value prints as the empty string). -/
def renderValue : PyValue → String
  | .text s => s
  | .intVal n => toString n
  | .floatVal q => toString q
  | .noneVal => ""

/-- One CSV data row: the row's value under each column, comma-separated. -/
def renderRow (cols : List String) (row : Dict) : String :=
  String.intercalate "," (cols.map (fun c =>
    match row.find? (fun kv => kv.1 = c) with
    | some kv => renderValue kv.2
    | none => ""))

/-- api.py line 276: `pd.DataFrame(list_of_scores).to_csv(index=False)` —
a header row of the column names followed by one line per dict, each line
newline-terminated. -/
def toCsv (rows : List Dict) : String :=
  let cols := dataFrameColumns rows
  String.intercalate "," cols ++ "\n" ++ strConcat (rows.map (fun r => renderRow cols r ++ "\n"))

/-- The event-loop of `asyncio.gather`: tasks finish in some completion
order (a sequence of indices); each completed task writes its result into
its own slot of an index-addressed result list of length `n`. -/
def gatherRun (order : List ℕ) (results : ℕ → Except String Dict) (n : ℕ) :
    List (Option (Except String Dict)) :=
  order.foldl (fun slots i => slots.set i (some (results i))) (List.replicate n none)

/-- The first task, in completion order, that raised an exception. -/
def firstError (order : List ℕ) (results : ℕ → Except String Dict) : Option String :=
  order.findSome? (fun i => match results i with | .error e => some e | .ok _ => none)

/-- The payload of a completed task (junk default for a slot that could
not have been filled). -/
def okValue : Except String Dict → Dict
  | .ok d => d
  | .error _ => []

/-- `await asyncio.gather(*tasks)` (api.py line 247): if some task raised,
the first exception (in completion order) propagates; otherwise the results
are returned indexed by task position, not by completion order. -/
def gatherJoin (order : List ℕ) (results : ℕ → Except String Dict) (n : ℕ) :
    Except String (List Dict) :=
  match firstError order results with
  | some e => .error e
  | none => .ok ((gatherRun order results n).map (fun s => okValue (s.getD (.error "pending"))))

/-- api.py lines 244-273: run one task per file concurrently, gather the
results in input order, and run the totals loop over every score dict.
This is the ScoreBatch of the specification. -/
def scoreBatch (criteriaList : List Json) (files : List UploadFile)
    (contents : List FileContent) (engine : ScoreEngine) (order : List ℕ) :
    Except String (List Dict) :=
  match gatherJoin order (taskOf files contents criteriaList engine) files.length with
  | .error e => .error e
  | .ok dicts => .ok (dicts.map applyTotals)

/-- The body of the `try:` block of `score_resumes` (api.py lines 220-284):
parse the criteria JSON (a parse failure is a `ValueError`), check it is a
list (else `HTTPException(400)`), check it is non-empty (else
`HTTPException(400)`), check every file's extension (else
`HTTPException(400)`), then build the batch and the CSV. -/
def score_resumes_body (criteriaRaw : Option Json) (files : List UploadFile)
    (contents : List FileContent) (engine : ScoreEngine) (order : List ℕ) :
    Except PyExn Response :=
  match criteriaRaw with
  | none => .error (.valueError "Expecting value")
  | some (Json.arr criteriaList) =>
    if criteriaList.length < 1 then
      .error (.httpExn 400 "At least one criteria must be provided")
    else
      match files.find? (fun f => !(validExtension f.filename)) with
      | some f => .error (.httpExn 400
          ("File " ++ f.filename ++ " is not supported. Only PDF and DOCX files are accepted."))
      | none =>
        match scoreBatch criteriaList files contents engine order with
        | .error e => .error (.exn e)
        | .ok rows => .ok { status_code := 200, csv := some (toCsv rows) }
  | some _ => .error (.httpExn 400 "Criteria must be a JSON-encoded list of strings")

/-- api.py lines 209-288 (`score_resumes`): the whole body runs inside
`try: ... except Exception as e: raise HTTPException(500, ...)`.  Because
`HTTPException` is itself an `Exception`, every exception raised in the
body — including the 400 validation `HTTPException`s — is caught and
re-raised as a 500 with detail
`"An error occurred during processing: " + str(e)`. -/
def score_resumes (criteriaRaw : Option Json) (files : List UploadFile)
    (contents : List FileContent) (engine : ScoreEngine) (order : List ℕ) : Response :=
  match score_resumes_body criteriaRaw files contents engine order with
  | .ok r => r
  | .error e =>
    { status_code := 500,
      detail := some ("An error occurred during processing: " ++ exnMessage e) }

/-- Concrete fixtures used to evaluate the model at specific inputs. -/
def unusedScoreEngine : ScoreEngine := fun _ _ => .error "unused"

/-- An engine that scores every criterion "3" and names the candidate. -/
def headerCexEngine : ScoreEngine :=
  fun _ _ => .ok (fun k => if k = "username" then .text "John Doe" else .text "3")

/-- An engine returning three criteria for a job description. -/
def threeCriteriaEngine : String → Except String ExtractedCriteria :=
  fun _ => .ok ⟨["communication", "python", "degree"]⟩

/-- An engine returning five criteria for a job description. -/
def fiveCriteriaEngine : String → Except String ExtractedCriteria :=
  fun _ => .ok ⟨["c1", "c2", "c3", "c4", "c5"]⟩

/-- An engine scoring every criterion "4". -/
def allFourEngine : ScoreEngine :=
  fun _ _ => .ok (fun k => if k = "username" then .text "Jane Smith" else .text "4")

/-- An engine scoring every criterion "5". -/
def allFiveEngine : ScoreEngine :=
  fun _ _ => .ok (fun k => if k = "username" then .text "Sam Poe" else .text "5")

/-- api.py lines 99-160 (`extract_criteria`): the extension check happens
BEFORE the `try:` block, so it is a genuine 400; inside the `try:` the text
is extracted (without table cells) and handed to `llm_response`, whose
parsed `ExtractedCriteria` is returned; any exception becomes a 500. -/
def extract_criteria (file : UploadFile) (content : FileContent)
    (engine : String → Except String ExtractedCriteria) : Response :=
  if !(validExtension file.filename) then
    { status_code := 400, detail := some "Only PDF and DOCX files are supported" }
  else
    match extractTextCriteria file.filename content with
    | .error e =>
      { status_code := 500, detail := some ("An error occurred during processing: " ++ e) }
    | .ok text =>
      match engine text with
      | .error e =>
        { status_code := 500, detail := some ("An error occurred during processing: " ++ e) }
      | .ok reply =>
        { status_code := 200,
          message := some ("Successfully processed file: " ++ file.filename),
          criteria := some reply.criteria }

/-! ### Helper lemmas about the Python-dict model -/

theorem hasKey_iff_mem {α : Type} (d : List (String × α)) (k : String) :
    hasKey d k = true ↔ k ∈ d.map Prod.fst := by
  simp [hasKey, List.any_eq_true, List.mem_map]

theorem keys_dictInsert_of_hasKey {α : Type} {d : List (String × α)} {k : String} (v : α)
    (h : hasKey d k = true) :
    (dictInsert d k v).map Prod.fst = d.map Prod.fst := by
  simp only [dictInsert, h, if_true, List.map_map]
  apply List.map_congr_left
  intro kv _
  by_cases hk : kv.1 = k
  · simp [Function.comp, hk]
  · simp [Function.comp, hk]

theorem keys_dictInsert_of_not_hasKey {α : Type} {d : List (String × α)} {k : String} (v : α)
    (h : ¬ hasKey d k = true) :
    (dictInsert d k v).map Prod.fst = d.map Prod.fst ++ [k] := by
  simp only [dictInsert, h, if_false]
  simp

theorem nodup_keys_dictInsert {α : Type} {d : List (String × α)} (k : String) (v : α)
    (hd : (d.map Prod.fst).Nodup) :
    ((dictInsert d k v).map Prod.fst).Nodup := by
  by_cases h : hasKey d k = true
  · rw [keys_dictInsert_of_hasKey v h]
    exact hd
  · rw [keys_dictInsert_of_not_hasKey v h]
    have hk : k ∉ d.map Prod.fst := fun hm => h ((hasKey_iff_mem d k).2 hm)
    simp [List.nodup_append, hd, hk]

theorem mem_dictInsert_self {α : Type} (d : List (String × α)) (k : String) (v : α) :
    (k, v) ∈ dictInsert d k v := by
  by_cases h : hasKey d k = true
  · obtain ⟨kv, hm, he⟩ := List.mem_map.1 ((hasKey_iff_mem d k).1 h)
    simp only [dictInsert, h, if_true]
    exact List.mem_map.2 ⟨kv, hm, by simp [he]⟩
  · simp only [dictInsert, if_neg h]
    simp

theorem not_mem_dictInsert_of_ne {α : Type} (d : List (String × α)) (k : String) {v w : α}
    (hvw : w ≠ v) : (k, w) ∉ dictInsert d k v := by
  intro hmem
  by_cases h : hasKey d k = true
  · simp only [dictInsert, h, if_true] at hmem
    obtain ⟨kv, _, he⟩ := List.mem_map.1 hmem
    by_cases hk : kv.1 = k
    · simp only [hk, if_true] at he
      exact hvw (congrArg Prod.snd he).symm
    · simp only [hk, if_false] at he
      exact hk (by rw [he])
  · simp only [dictInsert, if_neg h] at hmem
    rcases List.mem_append.1 hmem with hmem | hmem
    · exact h ((hasKey_iff_mem d k).2 (List.mem_map.2 ⟨(k, w), hmem, rfl⟩))
    · simp only [List.mem_singleton, Prod.mk.injEq, true_and] at hmem
      exact hvw hmem

theorem mem_keys_foldScore (l : List String) (k : String) :
    ∀ d : List (String × FieldDef),
      (k ∈ (l.foldl (fun d s => dictInsert d s .scoreField) d).map Prod.fst
        ↔ k ∈ d.map Prod.fst ∨ k ∈ l) := by
  induction l with
  | nil => intro d; simp
  | cons a rest ih =>
    intro d
    simp only [List.foldl_cons, ih]
    by_cases h : hasKey d a = true
    · rw [keys_dictInsert_of_hasKey _ h]
      have ha : a ∈ d.map Prod.fst := (hasKey_iff_mem d a).1 h
      constructor
      · rintro (hm | hm)
        · exact Or.inl hm
        · exact Or.inr (List.mem_cons_of_mem a hm)
      · rintro (hm | hm)
        · exact Or.inl hm
        · rcases List.mem_cons.1 hm with rfl | hm
          · exact Or.inl ha
          · exact Or.inr hm
    · rw [keys_dictInsert_of_not_hasKey _ h]
      simp only [List.mem_append, List.mem_singleton, List.mem_cons]
      tauto

theorem nodup_keys_foldScore (l : List String) :
    ∀ d : List (String × FieldDef), (d.map Prod.fst).Nodup →
      (((l.foldl (fun d s => dictInsert d s .scoreField) d)).map Prod.fst).Nodup := by
  induction l with
  | nil => intro d hd; simpa using hd
  | cons a rest ih =>
    intro d hd
    exact ih _ (nodup_keys_dictInsert a .scoreField hd)

theorem nodup_keys_buildScoreFields (l : List String) :
    ((buildScoreFields l).map Prod.fst).Nodup := by
  simpa using nodup_keys_foldScore l [] (by simp)

theorem mem_keys_buildScoreFields (l : List String) (k : String) :
    k ∈ (buildScoreFields l).map Prod.fst ↔ k ∈ l := by
  simpa using mem_keys_foldScore l k []

theorem keys_foldScore_of_fresh (l : List String) :
    ∀ d : List (String × FieldDef), (∀ s ∈ l, s ∉ d.map Prod.fst) → l.Nodup →
      (l.foldl (fun d s => dictInsert d s .scoreField) d).map Prod.fst = d.map Prod.fst ++ l := by
  induction l with
  | nil => intro d _ _; simp
  | cons a rest ih =>
    intro d hfresh hnd
    have ha : ¬ hasKey d a = true := fun h => hfresh a (by simp) ((hasKey_iff_mem d a).1 h)
    have hkeys := keys_dictInsert_of_not_hasKey (d := d) (k := a) FieldDef.scoreField ha
    simp only [List.foldl_cons]
    rw [ih (dictInsert d a .scoreField)]
    · rw [hkeys]
      simp
    · intro s hs
      rw [hkeys]
      simp only [List.mem_append, List.mem_singleton]
      rintro (hm | rfl)
      · exact hfresh s (by simp [hs]) hm
      · exact (List.nodup_cons.1 hnd).1 hs
    · exact (List.nodup_cons.1 hnd).2

theorem keys_buildScoreFields {l : List String} (hnd : l.Nodup) :
    (buildScoreFields l).map Prod.fst = l := by
  simpa using keys_foldScore_of_fresh l [] (by simp) hnd

theorem keys_create_class {K : List String} (hnd : K.Nodup) (hu : "username" ∉ K) :
    (create_class_from_strings K).map Prod.fst = K ++ ["username"] := by
  unfold create_class_from_strings
  have h : ¬ hasKey (buildScoreFields K) "username" = true := by
    rw [hasKey_iff_mem, mem_keys_buildScoreFields]
    exact hu
  rw [keys_dictInsert_of_not_hasKey _ h, keys_buildScoreFields hnd]

theorem countP_eq_one_of_nodup_mem {l : List String} {k : String}
    (hnd : l.Nodup) (h : k ∈ l) :
    l.countP (fun s => decide (s = k)) = 1 := by
  induction l with
  | nil => cases h
  | cons a rest ih =>
    rw [List.countP_cons]
    by_cases ha : a = k
    · subst ha
      have hnotin : a ∉ rest := (List.nodup_cons.1 hnd).1
      have h0 : rest.countP (fun s => decide (s = a)) = 0 := by
        rw [List.countP_eq_zero]
        intro b hb
        simp only [decide_eq_true_eq]
        rintro rfl
        exact hnotin hb
      simp [h0]
    · have hk : k ∈ rest := by
        rcases List.mem_cons.1 h with rfl | hm
        · exact absurd rfl ha
        · exact hm
      simp [ha, ih (List.nodup_cons.1 hnd).2 hk]

/-! ### Helper lemmas about the totals loop and the CSV serialization -/

theorem totalsFold_spec (d : Dict) :
    totalsFold d = (d.map (fun kv => (kv.1, (scoreStep kv.1 kv.2).1)),
      (d.map (fun kv => (scoreStep kv.1 kv.2).2)).foldl pyAdd (.int 0)) := by
  have h : ∀ (l : Dict) (acc : Dict × PyNumber),
      l.foldl (fun acc kv =>
        (acc.1 ++ [(kv.1, (scoreStep kv.1 kv.2).1)], pyAdd acc.2 (scoreStep kv.1 kv.2).2)) acc
      = (acc.1 ++ l.map (fun kv => (kv.1, (scoreStep kv.1 kv.2).1)),
         (l.map (fun kv => (scoreStep kv.1 kv.2).2)).foldl pyAdd acc.2) := by
    intro l
    induction l with
    | nil => intro acc; simp
    | cons kv rest ih =>
      intro acc
      simp [ih]
  simpa using h d ([], .int 0)

theorem pyAdd_int_zero (x : PyNumber) : pyAdd x (.int 0) = x := by
  cases x <;> simp [pyAdd]

theorem keys_totalsFold (d : Dict) :
    (totalsFold d).1.map Prod.fst = d.map Prod.fst := by
  rw [totalsFold_spec]
  simp [List.map_map, Function.comp]

theorem keys_applyTotals {d : Dict} (h : "total" ∉ d.map Prod.fst) :
    (applyTotals d).map Prod.fst = d.map Prod.fst ++ ["total"] := by
  unfold applyTotals
  have hk : ¬ hasKey (totalsFold d).1 "total" = true := by
    rw [hasKey_iff_mem, keys_totalsFold]
    exact h
  rw [keys_dictInsert_of_not_hasKey _ hk, keys_totalsFold]

theorem addCols_of_sub {row : Dict} {cols : List String}
    (h : ∀ kv ∈ row, kv.1 ∈ cols) : addCols cols row = cols := by
  unfold addCols
  induction row generalizing cols with
  | nil => simp
  | cons kv rest ih =>
    simp only [List.foldl_cons, h kv (by simp), if_true]
    exact ih (fun kv hm => h kv (by simp [hm]))

theorem addCols_of_fresh {row : Dict} :
    ∀ {cols : List String}, (∀ k ∈ row.map Prod.fst, k ∉ cols) → (row.map Prod.fst).Nodup →
      addCols cols row = cols ++ row.map Prod.fst := by
  unfold addCols
  induction row with
  | nil => intro cols _ _; simp
  | cons kv rest ih =>
    intro cols hfresh hnd
    have h1 : kv.1 ∉ cols := hfresh kv.1 (by simp)
    simp only [List.foldl_cons, if_neg h1]
    rw [ih]
    · simp
    · intro k hk
      simp only [List.mem_append, List.mem_singleton]
      rintro (hm | rfl)
      · exact hfresh k (by simp [hk]) hm
      · exact (List.nodup_cons.1 (by simpa using hnd)).1 hk
    · exact (List.nodup_cons.1 (by simpa using hnd)).2

theorem dataFrameColumns_const {rows : List Dict} {K : List String}
    (hne : rows ≠ []) (hk : ∀ r ∈ rows, r.map Prod.fst = K) (hnd : K.Nodup) :
    dataFrameColumns rows = K := by
  match rows with
  | [] => exact absurd rfl hne
  | r :: rest =>
    unfold dataFrameColumns
    have h1 : addCols [] r = K := by
      rw [addCols_of_fresh (by simp) (by rw [hk r (by simp)]; exact hnd), hk r (by simp)]
      simp
    simp only [List.foldl_cons, h1]
    have h2 : ∀ (l : List Dict), (∀ r ∈ l, r.map Prod.fst = K) → l.foldl addCols K = K := by
      intro l
      induction l with
      | nil => intro _; simp
      | cons r2 rest2 ih =>
        intro hmem
        have : addCols K r2 = K := by
          apply addCols_of_sub
          intro kv hkv
          have : kv.1 ∈ r2.map Prod.fst := List.mem_map.2 ⟨kv, hkv, rfl⟩
          rwa [hmem r2 (by simp)] at this
        simp only [List.foldl_cons, this]
        exact ih (fun r hr => hmem r (by simp [hr]))
    exact h2 rest (fun r2 hr => hk r2 (by simp [hr]))

theorem toCsv_header {rows : List Dict} {K : List String}
    (hne : rows ≠ []) (hk : ∀ r ∈ rows, r.map Prod.fst = K) (hnd : K.Nodup) :
    toCsv rows = String.intercalate "," K ++ "\n"
      ++ strConcat (rows.map (fun r => renderRow K r ++ "\n")) := by
  unfold toCsv
  rw [dataFrameColumns_const hne hk hnd]

/-! ### Helper lemmas about the gather model and the per-file tasks -/

theorem gatherRun_getElem? (order : List ℕ) (results : ℕ → Except String Dict) :
    ∀ (init : List (Option (Except String Dict))) (j : ℕ),
      (order.foldl (fun slots i => slots.set i (some (results i))) init)[j]? =
        if j ∈ order ∧ j < init.length then some (some (results j)) else init[j]? := by
  induction order with
  | nil => intro init j; simp
  | cons a rest ih =>
    intro init j
    simp only [List.foldl_cons]
    rw [ih, List.length_set, List.getElem?_set]
    by_cases hm : j ∈ rest
    · by_cases hj : j < init.length
      · simp [hm, hj]
      · have hlen : init.length ≤ j := Nat.le_of_not_lt hj
        simp [hm, hj, List.getElem?_eq_none hlen]
        omega
    · by_cases ha : a = j
      · subst ha
        by_cases hj : a < init.length
        · simp [hm, hj]
        · have hlen : init.length ≤ a := Nat.le_of_not_lt hj
          simp [hm, hj, List.getElem?_eq_none hlen]
      · have ha2 : ¬ j = a := fun he2 => ha he2.symm
        simp [hm, ha, ha2]

theorem gatherRun_perm {order : List ℕ} {n : ℕ} (results : ℕ → Except String Dict)
    (h : order.Perm (List.range n)) :
    gatherRun order results n = (List.range n).map (fun i => some (results i)) := by
  apply List.ext_getElem?
  intro j
  unfold gatherRun
  rw [gatherRun_getElem?, List.length_replicate]
  by_cases hj : j < n
  · have hmem : j ∈ order := h.mem_iff.2 (List.mem_range.2 hj)
    simp [hmem, hj, List.getElem?_range hj]
  · have hmem : j ∉ order := fun hm => hj (List.mem_range.1 (h.mem_iff.1 hm))
    have hlen : n ≤ j := Nat.le_of_not_lt hj
    simp [hmem, hj, List.getElem?_replicate,
      List.getElem?_eq_none (by simpa using hlen : ((List.range n).map
        (fun i => some (results i))).length ≤ j)]

theorem gatherJoin_ok {order : List ℕ} {n : ℕ} {results : ℕ → Except String Dict}
    (hperm : order.Perm (List.range n))
    (hok : ∀ i < n, ∃ d, results i = .ok d) :
    gatherJoin order results n = .ok ((List.range n).map (fun i => okValue (results i))) := by
  unfold gatherJoin
  have hfe : firstError order results = none := by
    rw [firstError, List.findSome?_eq_none_iff]
    intro i hi
    obtain ⟨d, hd⟩ := hok i (List.mem_range.1 (hperm.mem_iff.1 hi))
    simp [hd]
  rw [hfe, gatherRun_perm results hperm]
  simp [List.map_map, Function.comp]

theorem scoreBatch_ok {criteriaList : List Json} {files : List UploadFile}
    {contents : List FileContent} {engine : ScoreEngine} {order : List ℕ}
    (hperm : order.Perm (List.range files.length))
    (hok : ∀ i < files.length, ∃ d, taskOf files contents criteriaList engine i = .ok d) :
    scoreBatch criteriaList files contents engine order =
      .ok ((List.range files.length).map
        (fun i => applyTotals (okValue (taskOf files contents criteriaList engine i)))) := by
  unfold scoreBatch
  rw [gatherJoin_ok hperm hok]
  simp [List.map_map, Function.comp]

theorem jsonStrings_map_str (l : List String) : jsonStrings (l.map Json.str) = some l := by
  induction l with
  | nil => rfl
  | cons a rest ih =>
    show (match Json.str a, jsonStrings (rest.map Json.str) with
      | .str s, some r => some (s :: r)
      | _, _ => none) = some (a :: rest)
    rw [ih]

theorem task_ok_keys {files : List UploadFile} {contents : List FileContent}
    {cl : List String} {engine : ScoreEngine} {i : ℕ} {d : Dict}
    (h : taskOf files contents (cl.map Json.str) engine i = .ok d) :
    d.map Prod.fst = (create_class_from_strings (cl.map normalizeCriterion)).map Prod.fst := by
  have hmain : ∀ (f : UploadFile) (c : FileContent),
      process_file f c (cl.map Json.str) engine = .ok d →
      d.map Prod.fst = (create_class_from_strings (cl.map normalizeCriterion)).map Prod.fst := by
    intro f c h2
    unfold process_file at h2
    cases he : extractTextScore f.filename c with
    | error e => rw [he] at h2; cases h2
    | ok text =>
      rw [he, jsonStrings_map_str] at h2
      have h3 : llm_generate_score text cl engine = .ok d := h2
      simp only [llm_generate_score] at h3
      cases hv : engine text
          ((create_class_from_strings (cl.map normalizeCriterion)).map Prod.fst) with
      | error e => rw [hv] at h3; cases h3
      | ok valuation =>
        rw [hv] at h3
        cases h3
        simp [List.map_map, Function.comp]
  unfold taskOf at h
  cases hf : files[i]? with
  | none =>
    rw [hf] at h
    cases hc : contents[i]? <;> rw [hc] at h <;> cases h
  | some f =>
    rw [hf] at h
    cases hc : contents[i]? with
    | none => rw [hc] at h; cases h
    | some c =>
      rw [hc] at h
      exact hmain f c h

/-! ### Helper lemma about concatenated strings -/

theorem strConcat_mem_data {s : String} {l : List String} (h : s ∈ l) :
    ∃ pre post, (strConcat l).data = pre ++ s.data ++ post := by
  induction l with
  | nil => cases h
  | cons a rest ih =>
    rcases List.mem_cons.1 h with rfl | hm
    · refine ⟨[], (strConcat rest).data, ?_⟩
      show (s ++ strConcat rest).data = [] ++ s.data ++ (strConcat rest).data
      simp [String.data_append]
    · obtain ⟨pre, post, hp⟩ := ih hm
      refine ⟨a.data ++ pre, post, ?_⟩
      show (a ++ strConcat rest).data = a.data ++ pre ++ s.data ++ post
      simp [String.data_append, hp]

theorem scoreStep_noneVal (k : String) : scoreStep k .noneVal = (.noneVal, .int 0) := by
  unfold scoreStep
  split <;> rfl

theorem countP_key_eq_keys_countP {α : Type} (d : List (String × α)) (k : String) :
    d.countP (fun kv => decide (kv.1 = k))
      = (d.map Prod.fst).countP (fun s => decide (s = k)) := by
  rw [List.countP_map]
  rfl

theorem countP_key_dictInsert {α : Type} (d : List (String × α)) (k : String) (v : α)
    (hk : hasKey d k = true) :
    (dictInsert d k v).countP (fun kv => decide (kv.1 = k))
      = d.countP (fun kv => decide (kv.1 = k)) := by
  simp only [dictInsert, hk, if_true]
  rw [List.countP_map]
  apply List.countP_congr
  intro kv _
  by_cases h : kv.1 = k <;> simp [Function.comp, h]

/-! ### Claim theorems -/

/-- Claim C1 (code_bug evidence): a score_resumes request whose criteria
form field is the JSON array `[]` (not an array of at least one string) is
answered with the 500 internal-failure response, not the 400 validation
response, because the `HTTPException(400)` raised at api.py line 231 is an
`Exception` and is therefore caught by the catch-all at line 285 and
re-raised as a 500.  The same happens for a criteria field that is valid
JSON but not a list. -/
theorem score_resumes_invalid_criteria_gives_500 :
    score_resumes (some (.arr [])) [⟨"resume.pdf"⟩] [.pdf [some "resume text"]]
        unusedScoreEngine [0] =
      { status_code := 500,
        detail := some "An error occurred during processing: 400: At least one criteria must be provided" }
  ∧ score_resumes (some (.str "python")) [⟨"resume.pdf"⟩] [.pdf [some "resume text"]]
        unusedScoreEngine [0] =
      { status_code := 500,
        detail := some "An error occurred during processing: 400: Criteria must be a JSON-encoded list of strings" } :=
  ⟨rfl, rfl⟩

/-- Claim C2 counterexample: for criteria normalizing to Python_experience,
Django_knowledge, Education, the CSV of a successful request has header
`Python_experience,Django_knowledge,Education,username,total` — the
username column comes AFTER the criteria columns, because llm.py line 77
adds the username field after the per-criterion fields.  The claimed header
`username,Python_experience,Django_knowledge,Education,total` is wrong. -/
theorem csv_header_counterexample :
    score_resumes
        (some (.arr [.str "Python experience", .str "Django knowledge", .str "Education"]))
        [⟨"resume.pdf"⟩] [.pdf [some "resume text"]] headerCexEngine [0] =
      { status_code := 200,
        csv := some "Python_experience,Django_knowledge,Education,username,total\n3,3,3,John Doe,9\n" }
  ∧ strStartsWith "Python_experience,Django_knowledge,Education,username,total\n3,3,3,John Doe,9\n"
      "username" = false :=
  ⟨rfl, rfl⟩

/-- Claim C5 counterexample: "resume.PDF" has extension ".pdf" up to letter
case, yet extract_criteria rejects it with 400 (and score_resumes raises
the unsupported-file error, surfaced as 500) because the validation at
api.py lines 110 and 238 uses the case-sensitive
`filename.endswith((".pdf", ".docx"))`. -/
theorem extension_case_counterexample :
    strEndsWith (strLower "resume.PDF") ".pdf" = true
  ∧ (extract_criteria ⟨"resume.PDF"⟩ (.pdf [some "job text"]) fiveCriteriaEngine).status_code = 400
  ∧ (score_resumes (some (.arr [.str "Python"])) [⟨"resume.PDF"⟩] [.pdf [some "resume text"]]
        allFourEngine [0]).status_code = 500 :=
  ⟨rfl, rfl, rfl⟩

/-- Claim C6 counterexample: a DOCX containing one table and no paragraphs
yields the empty string in the extract-criteria pipeline (api.py lines
135-139 read only paragraphs), while the resume-scoring pipeline (api.py
lines 312-322) does extract the table cells. -/
theorem docx_table_only_counterexample :
    extractTextCriteria "jd.docx" (.docx ⟨[], [[["Skill", "5"]]]⟩) = .ok ""
  ∧ extractTextScore "jd.docx" (.docx ⟨[], [[["Skill", "5"]]]⟩) = .ok "Skill 5 \n" :=
  ⟨rfl, rfl⟩

/-- Claim C8 counterexample: nothing in the code checks that the analysis
engine returned exactly 5 criteria — the `ExtractedCriteria` schema is an
unconstrained `list[str]`.  With an engine reply of three strings the
endpoint succeeds with a 3-element criteria list. -/
theorem criteria_count_counterexample :
    (extract_criteria ⟨"jd.pdf"⟩ (.pdf [some "job description"]) threeCriteriaEngine).status_code
      = 200
  ∧ (extract_criteria ⟨"jd.pdf"⟩ (.pdf [some "job description"]) threeCriteriaEngine).criteria
      = some ["communication", "python", "degree"]
  ∧ (["communication", "python", "degree"] : List String).length ≠ 5 :=
  ⟨rfl, rfl, by decide⟩

/-- Claim C3: the per-field rules of the totals loop (api.py lines
250-273).  For every field other than username: a string converting to an
int in [1,5] keeps its value and contributes that integer; a string
converting to an int outside [1,5] becomes "Error" and contributes 0; an
unconvertible string is untouched and contributes 0; an int or float gets
the same range check without conversion; the username field contributes
nothing; and the loop's total is the sum of the per-field contributions. -/
theorem score_field_rules (key : String) (hkey : key ≠ "username") :
    (∀ s n, pyIntOfString s = some n → 1 ≤ n ∧ n ≤ 5 →
        scoreStep key (.text s) = (.text s, .int n))
  ∧ (∀ s n, pyIntOfString s = some n → ¬(1 ≤ n ∧ n ≤ 5) →
        scoreStep key (.text s) = (.text "Error", .int 0))
  ∧ (∀ s, pyIntOfString s = none → scoreStep key (.text s) = (.text s, .int 0))
  ∧ (∀ n : Int, (1 ≤ n ∧ n ≤ 5 → scoreStep key (.intVal n) = (.intVal n, .int n))
      ∧ (¬(1 ≤ n ∧ n ≤ 5) → scoreStep key (.intVal n) = (.text "Error", .int 0)))
  ∧ (∀ q : ℚ, (1 ≤ q ∧ q ≤ 5 → scoreStep key (.floatVal q) = (.floatVal q, .float q))
      ∧ (¬(1 ≤ q ∧ q ≤ 5) → scoreStep key (.floatVal q) = (.text "Error", .int 0)))
  ∧ (∀ v, scoreStep "username" v = (v, .int 0))
  ∧ (∀ d : Dict, (totalsFold d).2
      = (d.map (fun kv => (scoreStep kv.1 kv.2).2)).foldl pyAdd (.int 0)) := by
  refine ⟨?_, ?_, ?_, ?_, ?_, ?_, ?_⟩
  · intro s n hconv hrange
    simp [scoreStep, hkey, hconv, hrange]
  · intro s n hconv hrange
    simp [scoreStep, hkey, hconv, hrange]
  · intro s hconv
    simp [scoreStep, hkey, hconv]
  · intro n
    constructor <;> intro hrange <;> simp [scoreStep, hkey, hrange]
  · intro q
    constructor <;> intro hrange <;> simp [scoreStep, hkey, hrange]
  · intro v
    simp [scoreStep]
  · intro d
    rw [totalsFold_spec]

/-- Claim C3 witness: the rules evaluated on the field
Python_experience and on username at concrete values. -/
theorem score_field_rules_witness :
    scoreStep "Python_experience" (.text "3") = (.text "3", .int 3)
  ∧ scoreStep "Python_experience" (.text "9") = (.text "Error", .int 0)
  ∧ scoreStep "Python_experience" (.text "n/a") = (.text "n/a", .int 0)
  ∧ scoreStep "username" (.text "9") = (.text "9", .int 0) := by
  have h := score_field_rules "Python_experience" (by decide)
  exact ⟨h.1 "3" 3 rfl (by decide), h.2.1 "9" 9 rfl (by decide),
    h.2.2.1 "n/a" rfl, h.2.2.2.2.2.1 (.text "9")⟩

/-- Claim C10: a per-criterion value that is neither a string nor numeric
(Python None) matches neither isinstance branch of the totals loop: the
field is left unchanged in place and contributes 0 to the total, and the
loop (a total function in this model, mirroring the fact that the only
raising operation, int(), is wrapped in try/except) is unaffected by its
presence. -/
theorem aggregation_none_safe (d₁ d₂ : Dict) (k : String) :
    (totalsFold (d₁ ++ [(k, .noneVal)] ++ d₂)).1
        = (totalsFold d₁).1 ++ [(k, .noneVal)] ++ (totalsFold d₂).1
  ∧ (totalsFold (d₁ ++ [(k, .noneVal)] ++ d₂)).2 = (totalsFold (d₁ ++ d₂)).2 := by
  constructor
  · rw [totalsFold_spec, totalsFold_spec, totalsFold_spec]
    simp [scoreStep_noneVal]
  · rw [totalsFold_spec, totalsFold_spec]
    simp [scoreStep_noneVal, List.foldl_append, pyAdd_int_zero]

/-- Claim C9: if some criterion label normalizes to exactly "username",
the assignment `field_definitions["username"] = (str, "")` at llm.py line
77 silently overwrites that criterion's `(str, "5")` entry in place: the
resulting field dict holds exactly one "username" key, bound to the
username text field, and no score field under that key. -/
theorem username_collision_overwrites (criteria : List String) (label : String)
    (hmem : label ∈ criteria) (hnorm : normalizeCriterion label = "username") :
    (create_class_from_strings (criteria.map normalizeCriterion)).countP
        (fun kv => decide (kv.1 = "username")) = 1
  ∧ ("username", FieldDef.usernameField)
      ∈ create_class_from_strings (criteria.map normalizeCriterion)
  ∧ ("username", FieldDef.scoreField)
      ∉ create_class_from_strings (criteria.map normalizeCriterion) := by
  have hu : "username" ∈ criteria.map normalizeCriterion :=
    List.mem_map.2 ⟨label, hmem, hnorm⟩
  have hk : hasKey (buildScoreFields (criteria.map normalizeCriterion)) "username" = true :=
    (hasKey_iff_mem _ _).2 ((mem_keys_buildScoreFields _ _).2 hu)
  refine ⟨?_, mem_dictInsert_self _ _ _, not_mem_dictInsert_of_ne _ _ (by decide)⟩
  unfold create_class_from_strings
  rw [countP_key_dictInsert _ _ _ hk, countP_key_eq_keys_countP]
  exact countP_eq_one_of_nodup_mem (nodup_keys_buildScoreFields _)
    ((mem_keys_buildScoreFields _ _).2 hu)

/-- Claim C9 witness: the collision evaluated at the criteria list
["username", "Python"], whose first label normalizes to "username". -/
theorem username_collision_overwrites_witness :
    (create_class_from_strings (["username", "Python"].map normalizeCriterion)).countP
        (fun kv => decide (kv.1 = "username")) = 1
  ∧ ("username", FieldDef.usernameField)
      ∈ create_class_from_strings (["username", "Python"].map normalizeCriterion)
  ∧ ("username", FieldDef.scoreField)
      ∉ create_class_from_strings (["username", "Python"].map normalizeCriterion) :=
  username_collision_overwrites ["username", "Python"] "username" (by simp) rfl

/-- Claim C4: for a batch whose tasks all succeed, the resulting ScoreBatch
has exactly one row per input file and the i-th row is the totalled score
dict of the i-th file, for EVERY completion order of the concurrent tasks
(any permutation of the task indices): asyncio.gather keys results by task
position, not by completion order. -/
theorem scoreBatch_row_per_file_in_order (criteriaList : List Json)
    (files : List UploadFile) (contents : List FileContent) (engine : ScoreEngine)
    (order : List ℕ)
    (hperm : order.Perm (List.range files.length))
    (hok : ∀ i < files.length, ∃ d, taskOf files contents criteriaList engine i = .ok d) :
    ∃ rows, scoreBatch criteriaList files contents engine order = .ok rows
      ∧ rows.length = files.length
      ∧ ∀ i, i < files.length →
          rows[i]? = some (applyTotals (okValue (taskOf files contents criteriaList engine i))) := by
  refine ⟨_, scoreBatch_ok hperm hok, ?_, ?_⟩
  · simp
  · intro i hi
    simp [List.getElem?_range hi]

/-- Claim C4 witness: two files whose tasks complete in reversed order
still produce the batch in input-file order. -/
theorem scoreBatch_row_per_file_in_order_witness :
    ∃ rows, scoreBatch [.str "Skill"] [⟨"a.pdf"⟩, ⟨"b.pdf"⟩]
        [.pdf [some "resume A"], .pdf [some "resume B"]] allFiveEngine [1, 0] = .ok rows
      ∧ rows.length = 2
      ∧ rows[0]? = some (applyTotals (okValue
          (taskOf [⟨"a.pdf"⟩, ⟨"b.pdf"⟩] [.pdf [some "resume A"], .pdf [some "resume B"]]
            [.str "Skill"] allFiveEngine 0))) := by
  obtain ⟨rows, h1, h2, h3⟩ := scoreBatch_row_per_file_in_order [.str "Skill"]
    [⟨"a.pdf"⟩, ⟨"b.pdf"⟩] [.pdf [some "resume A"], .pdf [some "resume B"]] allFiveEngine [1, 0]
    (by decide)
    (by
      intro i hi
      rcases i with _ | _ | i
      · exact ⟨_, rfl⟩
      · exact ⟨_, rfl⟩
      · simp only [List.length_cons, List.length_nil] at hi
        omega)
  exact ⟨rows, h1, h2, h3 0 (by decide)⟩

/-- Claim C7: if any single per-file task raises (extraction or analysis
failure), the whole score_resumes request is answered by ONE 500 failure
response carrying no CSV — no partial batch with rows for the other
files. -/
theorem single_failure_fails_batch (cl : List Json) (files : List UploadFile)
    (contents : List FileContent) (engine : ScoreEngine) (order : List ℕ)
    (hcl : cl ≠ [])
    (hvalid : ∀ f ∈ files, validExtension f.filename = true)
    (hfail : ∃ i ∈ order, ∃ e, taskOf files contents cl engine i = .error e) :
    (score_resumes (some (.arr cl)) files contents engine order).status_code = 500
  ∧ (score_resumes (some (.arr cl)) files contents engine order).csv = none := by
  obtain ⟨i, hio, e, he⟩ := hfail
  have hfe : ∃ msg, firstError order (taskOf files contents cl engine) = some msg := by
    cases hcase : firstError order (taskOf files contents cl engine) with
    | some msg => exact ⟨msg, rfl⟩
    | none =>
      rw [firstError, List.findSome?_eq_none_iff] at hcase
      have h2 := hcase i hio
      rw [he] at h2
      cases h2
  obtain ⟨msg, hmsg⟩ := hfe
  have hlen : ¬ cl.length < 1 := by
    have := List.length_pos.2 hcl
    omega
  have hfind : files.find? (fun f => !(validExtension f.filename)) = none := by
    rw [List.find?_eq_none]
    intro f hf
    simp [hvalid f hf]
  have hsb : scoreBatch cl files contents engine order = .error msg := by
    unfold scoreBatch gatherJoin
    rw [hmsg]
  have hbody : score_resumes_body (some (.arr cl)) files contents engine order
      = .error (.exn msg) := by
    simp only [score_resumes_body]
    rw [if_neg hlen, hfind, hsb]
  unfold score_resumes
  rw [hbody]
  exact ⟨rfl, rfl⟩

/-- Claim C7 witness: three files of which the second is unreadable — the
request is one 500 failure with no CSV. -/
theorem single_failure_fails_batch_witness :
    (score_resumes (some (.arr [.str "Skill"])) [⟨"a.pdf"⟩, ⟨"b.pdf"⟩, ⟨"c.pdf"⟩]
        [.pdf [some "resume A"], .broken "corrupt file", .pdf [some "resume C"]]
        allFourEngine [0, 1, 2]).status_code = 500
  ∧ (score_resumes (some (.arr [.str "Skill"])) [⟨"a.pdf"⟩, ⟨"b.pdf"⟩, ⟨"c.pdf"⟩]
        [.pdf [some "resume A"], .broken "corrupt file", .pdf [some "resume C"]]
        allFourEngine [0, 1, 2]).csv = none :=
  single_failure_fails_batch [.str "Skill"] [⟨"a.pdf"⟩, ⟨"b.pdf"⟩, ⟨"c.pdf"⟩]
    [.pdf [some "resume A"], .broken "corrupt file", .pdf [some "resume C"]]
    allFourEngine [0, 1, 2] (List.cons_ne_nil _ _) (by decide)
    ⟨1, by decide, "corrupt file", rfl⟩

/-- Claim C2 amended: for every successful score_resumes request (criteria
strings whose normalized keys are distinct and collide with neither
"username" nor "total"), the CSV header is the normalized criteria columns
in criteria order, then the `username` column, then the trailing `total`
column — username comes after the criteria, not first. -/
theorem csv_header_columns (cl : List String) (files : List UploadFile)
    (contents : List FileContent) (engine : ScoreEngine) (order : List ℕ)
    (hkeys : (cl.map normalizeCriterion).Nodup)
    (huser : "username" ∉ cl.map normalizeCriterion)
    (htotal : "total" ∉ cl.map normalizeCriterion)
    (hcl : cl ≠ []) (hfiles : files ≠ [])
    (hvalid : ∀ f ∈ files, validExtension f.filename = true)
    (hperm : order.Perm (List.range files.length))
    (hok : ∀ i < files.length, ∃ d,
        taskOf files contents (cl.map Json.str) engine i = .ok d) :
    ∃ rest, score_resumes (some (.arr (cl.map Json.str))) files contents engine order =
      { status_code := 200,
        csv := some (String.intercalate ","
          (cl.map normalizeCriterion ++ ["username", "total"]) ++ "\n" ++ rest) } := by
  have hsb := @scoreBatch_ok (cl.map Json.str) files contents engine order hperm hok
  set rows := (List.range files.length).map
    (fun i => applyTotals (okValue (taskOf files contents (cl.map Json.str) engine i)))
    with hrows
  have hOK : ∀ r ∈ rows, r.map Prod.fst
      = cl.map normalizeCriterion ++ ["username", "total"] := by
    intro r hr
    rw [hrows] at hr
    obtain ⟨i, hi, rfl⟩ := List.mem_map.1 hr
    obtain ⟨d, hd⟩ := hok i (List.mem_range.1 hi)
    rw [hd]
    have hkeys_d : d.map Prod.fst
        = (create_class_from_strings (cl.map normalizeCriterion)).map Prod.fst :=
      task_ok_keys hd
    rw [keys_create_class hkeys huser] at hkeys_d
    have htot : "total" ∉ d.map Prod.fst := by
      rw [hkeys_d]
      simp only [List.mem_append, List.mem_singleton]
      rintro (hm | hm)
      · exact htotal hm
      · exact absurd hm (by decide)
    show (applyTotals (okValue (Except.ok d))).map Prod.fst = _
    rw [show okValue (Except.ok d) = d from rfl, keys_applyTotals htot, hkeys_d]
    simp
  have hnodup : (cl.map normalizeCriterion ++ ["username", "total"]).Nodup := by
    rw [List.nodup_append]
    refine ⟨hkeys, by decide, fun a ha hb => ?_⟩
    simp only [List.mem_cons, List.mem_singleton, List.not_mem_nil, or_false] at hb
    rcases hb with hb | hb
    · rw [hb] at ha
      exact huser ha
    · rw [hb] at ha
      exact htotal ha
  have hne : rows ≠ [] := by
    rw [hrows]
    intro hnil
    have h0 := congrArg List.length hnil
    simp only [List.length_map, List.length_range, List.length_nil] at h0
    exact hfiles (List.length_eq_zero.1 h0)
  have hcsv := toCsv_header hne hOK hnodup
  have hlen : ¬ (cl.map Json.str).length < 1 := by
    have := List.length_pos.2 hcl
    simp only [List.length_map]
    omega
  have hfind : files.find? (fun f => !(validExtension f.filename)) = none := by
    rw [List.find?_eq_none]
    intro f hf
    simp [hvalid f hf]
  refine ⟨strConcat (rows.map (fun r =>
    renderRow (cl.map normalizeCriterion ++ ["username", "total"]) r ++ "\n")), ?_⟩
  have hbody : score_resumes_body (some (.arr (cl.map Json.str))) files contents engine order
      = .ok { status_code := 200, csv := some (toCsv rows) } := by
    simp only [score_resumes_body]
    rw [if_neg hlen, hfind, hsb]
  unfold score_resumes
  rw [hbody, hcsv]

/-- Claim C2 witness: one resume scored against the three example criteria;
the header is Python_experience,Django_knowledge,Education,username,total. -/
theorem csv_header_columns_witness :
    ∃ rest, score_resumes
        (some (.arr (["Python experience", "Django knowledge", "Education"].map Json.str)))
        [⟨"w.pdf"⟩] [.pdf [some "resume W"]] allFiveEngine [0] =
      { status_code := 200,
        csv := some (String.intercalate ","
          (["Python experience", "Django knowledge", "Education"].map normalizeCriterion
            ++ ["username", "total"]) ++ "\n" ++ rest) } :=
  csv_header_columns ["Python experience", "Django knowledge", "Education"]
    [⟨"w.pdf"⟩] [.pdf [some "resume W"]] allFiveEngine [0]
    (by decide) (by decide) (by decide) (List.cons_ne_nil _ _) (List.cons_ne_nil _ _)
    (by decide) (by decide)
    (by
      intro i hi
      rcases i with _ | i
      · exact ⟨_, rfl⟩
      · simp only [List.length_cons, List.length_nil] at hi
        omega)

/-- Claim C5 amended: the supported-format check is case-sensitive, in both
operations: a file is accepted exactly when its filename ends with the
lowercase ".pdf" or ".docx" (`validExtension`); otherwise extract-criteria
answers 400 and the score-resumes body raises the unsupported-file 400
HTTPException (which the catch-all then converts to a 500); once every
file passes the check, no 400 HTTPException is raised at all. -/
theorem extension_check_case_sensitive (name : String) (content : FileContent)
    (engine : String → Except String ExtractedCriteria) (engine2 : ScoreEngine)
    (cl : List Json) (order : List ℕ) (hcl : cl ≠ []) :
    ((extract_criteria ⟨name⟩ content engine).status_code = 400
        ↔ validExtension name = false)
  ∧ (validExtension name = false →
      score_resumes_body (some (.arr cl)) [⟨name⟩] [content] engine2 order =
        .error (.httpExn 400
          ("File " ++ name ++ " is not supported. Only PDF and DOCX files are accepted.")))
  ∧ (validExtension name = true →
      ∀ s, score_resumes_body (some (.arr cl)) [⟨name⟩] [content] engine2 order ≠
        .error (.httpExn 400 s)) := by
  have hlen : ¬ cl.length < 1 := by
    have := List.length_pos.2 hcl
    omega
  refine ⟨?_, ?_, ?_⟩
  · by_cases hv : validExtension name = true
    · rw [hv]
      simp only [extract_criteria, hv, Bool.not_true, Bool.false_eq_true, if_false]
      cases hext : extractTextCriteria name content with
      | error e => simp
      | ok text =>
        cases heng : engine text with
        | error e => simp [heng]
        | ok reply => simp [heng]
    · have hv2 : validExtension name = false := by
        cases hx : validExtension name
        · rfl
        · exact absurd hx hv
      rw [hv2]
      simp [extract_criteria, hv2]
  · intro hv2
    simp only [score_resumes_body]
    rw [if_neg hlen]
    have hfind : List.find? (fun f => !(validExtension f.filename)) [(⟨name⟩ : UploadFile)]
        = some ⟨name⟩ := by
      simp [List.find?, hv2]
    rw [hfind]
  · intro hv s
    simp only [score_resumes_body]
    rw [if_neg hlen]
    have hfind : List.find? (fun f => !(validExtension f.filename)) [(⟨name⟩ : UploadFile)]
        = none := by
      simp [List.find?, hv]
    rw [hfind]
    cases hsb : scoreBatch cl [⟨name⟩] [content] engine2 order <;> simp

/-- Claim C5 witness: "cv.PDF" (uppercase extension) is rejected by the
case-sensitive check in both operations, with the concrete error payloads,
while the lowercase "cv.pdf" passes the check. -/
theorem extension_check_case_sensitive_witness :
    (extract_criteria ⟨"cv.PDF"⟩ (.pdf [some "text"]) fiveCriteriaEngine).status_code = 400
  ∧ score_resumes_body (some (.arr [.str "Python"])) [⟨"cv.PDF"⟩] [.pdf [some "text"]]
      allFourEngine [0] =
        .error (.httpExn 400 "File cv.PDF is not supported. Only PDF and DOCX files are accepted.")
  ∧ (extract_criteria ⟨"cv.pdf"⟩ (.pdf [some "text"]) fiveCriteriaEngine).status_code ≠ 400 := by
  have h := extension_check_case_sensitive "cv.PDF" (.pdf [some "text"]) fiveCriteriaEngine
    allFourEngine [.str "Python"] [0] (List.cons_ne_nil _ _)
  have h2 := extension_check_case_sensitive "cv.pdf" (.pdf [some "text"]) fiveCriteriaEngine
    allFourEngine [.str "Python"] [0] (List.cons_ne_nil _ _)
  refine ⟨h.1.2 (by decide), h.2.1 (by decide), fun hc => ?_⟩
  have hfalse := h2.1.1 hc
  have htrue : validExtension "cv.pdf" = true := by decide
  rw [htrue] at hfalse
  cases hfalse

/-- Claim C6 amended: only the resume-scoring pipeline appends table text.
For every DOCX with no paragraphs and at least one table cell, the
extract-criteria pipeline yields the EMPTY string, while the process_file
pipeline yields non-empty text containing each cell's text (each cell
followed by a space, each row newline-terminated). -/
theorem docx_tables_only_in_scoring (doc : DocxDocument) (name : String)
    (hname : strLower (splitextExt name) = ".docx")
    (hpar : doc.paragraphs = [])
    (t : List (List String)) (ht : t ∈ doc.tables)
    (row : List String) (hrow : row ∈ t)
    (cell : String) (hcell : cell ∈ row) :
    extractTextCriteria name (.docx doc) = .ok ""
  ∧ ∃ text pre post, extractTextScore name (.docx doc) = .ok text
      ∧ text.data = pre ++ cell.data ++ (' ' :: post)
      ∧ text ≠ "" := by
  have hne : ¬ (".docx" : String) = ".pdf" := by decide
  constructor
  · simp only [extractTextCriteria, hname, if_neg hne, eq_self_iff_true, if_true, hpar]
    rfl
  · refine ⟨String.intercalate "\n" doc.paragraphs ++ docxTablesText doc.tables, ?_⟩
    obtain ⟨p1, q1, h1⟩ := strConcat_mem_data
      (List.mem_map.2 ⟨cell, hcell, rfl⟩ :
        cell ++ " " ∈ row.map (fun cell => cell ++ " "))
    obtain ⟨p2, q2, h2⟩ := strConcat_mem_data
      (List.mem_map.2 ⟨row, hrow, rfl⟩ :
        strConcat (row.map (fun cell => cell ++ " ")) ++ "\n"
          ∈ t.map (fun row => strConcat (row.map (fun cell => cell ++ " ")) ++ "\n"))
    obtain ⟨p3, q3, h3⟩ := strConcat_mem_data
      (List.mem_map.2 ⟨t, ht, rfl⟩ :
        strConcat (t.map (fun row => strConcat (row.map (fun cell => cell ++ " ")) ++ "\n"))
          ∈ doc.tables.map (fun table =>
              strConcat (table.map (fun row =>
                strConcat (row.map (fun cell => cell ++ " ")) ++ "\n"))))
    rw [String.data_append] at h1 h2
    have hsp : ((" " : String)).data = [' '] := rfl
    have hnl : (("\n" : String)).data = ['\n'] := rfl
    rw [hsp] at h1
    rw [hnl] at h2
    have hdata : (String.intercalate "\n" doc.paragraphs ++ docxTablesText doc.tables).data
        = (p3 ++ (p2 ++ p1)) ++ cell.data ++ (' ' :: (q1 ++ ('\n' :: (q2 ++ q3)))) := by
      rw [String.data_append, hpar]
      have hint : (String.intercalate "\n" ([] : List String)).data = [] := rfl
      rw [hint, List.nil_append]
      show (strConcat (doc.tables.map (fun table =>
          strConcat (table.map (fun row =>
            strConcat (row.map (fun cell => cell ++ " ")) ++ "\n"))))).data = _
      rw [h3, h2, h1]
      simp [List.append_assoc]
    refine ⟨p3 ++ (p2 ++ p1), q1 ++ ('\n' :: (q2 ++ q3)), ?_, hdata, ?_⟩
    · simp only [extractTextScore, hname, if_neg hne, eq_self_iff_true, if_true]
    · intro hempty
      have hd := congrArg String.data hempty
      rw [hdata] at hd
      have hnil : (("" : String)).data = [] := rfl
      rw [hnil] at hd
      simp at hd

/-- Claim C6 witness: a one-table DOCX evaluated through both pipelines. -/
theorem docx_tables_only_in_scoring_witness :
    extractTextCriteria "jd2.docx" (.docx ⟨[], [[["Experience", "4"]]]⟩) = .ok ""
  ∧ ∃ text pre post,
      extractTextScore "jd2.docx" (.docx ⟨[], [[["Experience", "4"]]]⟩) = .ok text
        ∧ text.data = pre ++ "Experience".data ++ (' ' :: post)
        ∧ text ≠ "" :=
  docx_tables_only_in_scoring ⟨[], [[["Experience", "4"]]]⟩ "jd2.docx" (by decide) rfl
    [["Experience", "4"]] (by simp) ["Experience", "4"] (by simp) "Experience" (by simp)

/-- Claim C8 amended: successful criteria extraction returns exactly the
list of strings the analysis engine produced — the schema constrains the
type (a list of strings) but nothing checks the count is 5; only the
prompt asks for 5. -/
theorem criteria_passthrough (file : UploadFile) (content : FileContent)
    (engine : String → Except String ExtractedCriteria) (text : String)
    (reply : ExtractedCriteria)
    (hvalid : validExtension file.filename = true)
    (hext : extractTextCriteria file.filename content = .ok text)
    (heng : engine text = .ok reply) :
    extract_criteria file content engine =
      { status_code := 200,
        message := some ("Successfully processed file: " ++ file.filename),
        criteria := some reply.criteria } := by
  simp [extract_criteria, hvalid, hext, heng]

/-- Claim C8 witness: a five-criteria engine reply passes through as-is. -/
theorem criteria_passthrough_witness :
    extract_criteria ⟨"posting.pdf"⟩ (.pdf [some "posting text"]) fiveCriteriaEngine =
      { status_code := 200,
        message := some "Successfully processed file: posting.pdf",
        criteria := some ["c1", "c2", "c3", "c4", "c5"] } := by
  exact criteria_passthrough ⟨"posting.pdf"⟩ (.pdf [some "posting text"]) fiveCriteriaEngine
    "posting text\n" ⟨["c1", "c2", "c3", "c4", "c5"]⟩ (by decide) rfl rfl

end JobRanker
